import Mathlib

/-!
Verification of the agentic-RAG notebook (rag-agent_deepseek_alphabet.ipynb).

The notebook wires a LangChain `AgentExecutor` around a JSON single-action
agent chain with two tools (VectorStoreSearch, WebSearch).  The definitions
below are a shallow embedding of that program: the executor loop, the JSON
agent chain, the two tool adapters and the prompt plumbing, translated from
the notebook cells together with the LangChain library code those cells
invoke (AgentExecutor defaults: max_iterations = 15, early_stopping_method
= "force", return_intermediate_steps = False, handle_parsing_errors = True;
JSONAgentOutputParser; RetrievalQA "stuff" chain; format_log_to_str;
TavilySearchResults with its max_results default of 5 and its internal
exception catching that returns the repr of a provider error).
External collaborators (the chat model, the Qdrant similarity search and
the Tavily provider) are opaque parameters.
-/

namespace AgenticRag

/-- One result returned by the Tavily web-search provider. -/
structure SearchResult where
  url : String
  content : String
deriving DecidableEq

/-- The three external collaborators of the notebook.  `llm` is the chat
model (prompt text in, raw text out).  `store` is the Qdrant similarity
search: query and `k` in, top-`k` passages out (or a raised exception).
`tavily` is the web-search provider: query and maximum result count in,
result list out, or a raised exception whose `repr` text travels on the
error channel. -/
structure Collaborators where
  llm : String → String
  store : String → Nat → Except String (List String)
  tavily : String → Nat → Except String (List SearchResult)

/-- What `JSONAgentOutputParser` produces on a successful parse: either an
`AgentFinish` (the "Final Answer" action) or an `AgentAction` naming a tool
and its input. -/
inductive AgentDecision where
  | finish (output : String)
  | act (tool : String) (toolInput : String)
deriving DecidableEq

/-- LangChain `AgentAction`: tool name, tool input, and the raw model text
(`log`) that produced it. -/
structure AgentAction where
  tool : String
  toolInput : String
  log : String
deriving DecidableEq

/-- One element of `intermediate_steps`: an executed action together with
the observation string obtained for it. -/
structure AgentStep where
  action : AgentAction
  observation : String
deriving DecidableEq

/-- Default prompt of the RetrievalQA "stuff" chain built by
`RetrievalQA.from_chain_type(llm=llm, retriever=retriever)`: the retrieved
passages are joined and stuffed into a fixed template around the query. -/
def ragPrompt (docs : List String) (query : String) : String :=
  "Use the following pieces of context to answer the question at the end. If you don\x27t know the answer, just say that you don\x27t know, don\x27t try to make up an answer.\n\n"
    ++ String.intercalate "\n\n" docs
    ++ "\n\nQuestion: " ++ query ++ "\nHelpful Answer:"

/-- `vector_search` from the notebook: `qa_chain.run(query)` where
`qa_chain = RetrievalQA.from_chain_type(llm=llm, retriever=retriever)` and
`retriever = vectorstore.as_retriever()` (default top-k of 4).  Stage one
fetches the top-4 passages, stage two feeds them with the query to the
model and returns its text verbatim. -/
def vector_search (c : Collaborators) (query : String) : Except String String :=
  (c.store query 4).map (fun docs => c.llm (ragPrompt docs query))

/-- Python `str()` of one Tavily result dict, as it appears in the
serialized observation. -/
def pyValue (r : SearchResult) : String :=
  "\x7b\x27url\x27: \x27" ++ r.url ++ "\x27, \x27content\x27: \x27" ++ r.content ++ "\x27\x7d"

/-- Python `str()` of the Tavily result list: the string the executor
records as the WebSearch observation. -/
def pyStr (rs : List SearchResult) : String :=
  "[" ++ String.intercalate ", " (rs.map pyValue) ++ "]"

/-- `web_search` from the notebook: `web_search_tool.run(query)` where
`web_search_tool = TavilySearchResults(k=10)`.  `k` is not a field of
`TavilySearchResults`, so the unknown keyword is ignored and the tool
keeps its default `max_results` of 5: the provider is asked for up to 5
results (the notebook's recorded WebSearch observation holds exactly 5).
The raw result list is serialized into the observation string.  A provider
exception is caught inside `TavilySearchResults._run`, which returns
`repr(e)` as the tool's output string instead of raising.  The chat model
is not involved. -/
def web_search (c : Collaborators) (query : String) : Except String String :=
  match c.tavily query 5 with
  | .ok rs => .ok (pyStr rs)
  | .error e => .ok e

/-- The `tools` list of the notebook: name and description of the two
registered tools, in source order. -/
def tool_descriptions : List (String × String) :=
  [("VectorStoreSearch", "Use this to search the vector store for information."),
   ("WebSearch", "Use this to perform a web search for information.")]

/-- The tool registry as the executor sees it: name-to-callable mapping in
insertion order (`name_to_tool_map`). -/
def tools (c : Collaborators) : List (String × (String → Except String String)) :=
  [("VectorStoreSearch", vector_search c), ("WebSearch", web_search c)]

/-- `", ".join([t.name for t in tools])`, filling the tool_names prompt
placeholder. -/
def tool_names : String :=
  String.intercalate ", " (tool_descriptions.map Prod.fst)

/-- `render_text_description_and_args(tools)`: one line per tool,
"name: description, args: schema", joined by newlines. -/
def render_tools_text : String :=
  String.intercalate "\n"
    (tool_descriptions.map (fun td =>
      td.1 ++ ": " ++ td.2 ++ ", args: \x7b\x27tool_input\x27: \x7b\x27type\x27: \x27string\x27\x7d\x7d"))

/-- The notebook's `system_prompt` string (braces and backticks escaped). -/
def system_prompt : String :=
  "Respond to the human as helpfully and accurately as possible. You have access to the following tools: \x7btools\x7d\nAlways try the \"VectorStoreSearch\" tool first. Only use \"WebSearch\" if the vector store does not contain the required information.\nUse a json blob to specify a tool by providing an action key (tool name) and an action_input key (tool input).\nCurrent date is February 2025.\nValid \"action\" values: \"Final Answer\" or \x7btool_names\x7d\nProvide only ONE action per \nJSON_BLOB\n\x60\x60\x60\nObservation: action result\n... (repeat Thought/Action/Observation N times)\nThought: I know what to respond\nAction:\n\x60\x60\x60\n\x7b\x7b\n  \"action\": \"Final Answer\",\n  \"action_input\": \"Final response to human\"\n\x7d\x7d\nBegin! Reminder to ALWAYS respond with a valid json blob of a single action.\nRespond directly if appropriate. Format is Action:\x60\x60\x60$JSON_BLOB\x60\x60\x60then Observation"

/-- The notebook's `human_prompt` string. -/
def human_prompt : String :=
  "\x7binput\x7d\n\x7bagent_scratchpad\x7d\n(reminder to always respond in a JSON blob)"

/-- `format_log_to_str(intermediate_steps)`: for each (action, observation)
pair, append the action's raw log, then "Observation: <obs>", then a
"Thought: " prompt for the next turn. -/
def format_log_to_str (steps : List AgentStep) : String :=
  steps.foldl
    (fun acc st =>
      acc ++ st.action.log ++ "\nObservation: " ++ st.observation ++ "\nThought: ")
    ""

/-- The fully rendered prompt one loop turn sends to the chat model: the
system template with tools and tool_names substituted, then the human
template with the user input and the scratchpad substituted. -/
def renderPrompt (input : String) (steps : List AgentStep) : String :=
  String.replace
      (String.replace system_prompt "\x7btools\x7d" render_tools_text)
      "\x7btool_names\x7d" tool_names
    ++ "\n"
    ++ String.replace
        (String.replace human_prompt "\x7binput\x7d" input)
        "\x7bagent_scratchpad\x7d" (format_log_to_str steps)

/-- The agent runnable handed to the executor: the collaborators plus the
output parsing stage.  `parse` stands for `JSONAgentOutputParser`: raw model
text to a decision, or a raised `OutputParserException` carried as
`Except.error` with the exception text. -/
structure AgentConfig where
  collab : Collaborators
  parse : String → Except String AgentDecision

/-- The raw text the chat model emits on one turn. -/
def rawOf (cfg : AgentConfig) (input : String) (steps : List AgentStep) : String :=
  cfg.collab.llm (renderPrompt input steps)

/-- One call of the agent chain (`RunnablePassthrough.assign(...) | prompt
| llm | JSONAgentOutputParser()`). -/
def plan (cfg : AgentConfig) (input : String) (steps : List AgentStep) :
    Except String AgentDecision :=
  cfg.parse (rawOf cfg input steps)

/-- Result of `AgentExecutor._take_next_step`: either new intermediate
steps or an `AgentFinish` output. -/
inductive NextStepOutput where
  | steps (ss : List AgentStep)
  | finish (output : String)
deriving DecidableEq

/-- Observation text substituted by the executor when
`handle_parsing_errors=True` recovers an `OutputParserException`. -/
def parse_error_observation : String := "Invalid or incomplete response"

/-- Observation produced by LangChain's `InvalidTool` when a parsed action
names a tool missing from the registry. -/
def invalid_tool_msg (name : String) : String :=
  name ++ " is not a valid tool, try one of [" ++ tool_names ++ "]."

/-- `AgentExecutor._take_next_step` for this notebook's configuration:
plan; on `OutputParserException` append an `_Exception` step carrying the
corrective observation (handle_parsing_errors=True); on `AgentFinish`
report the final output; on an action, dispatch the named tool if it is
registered (a raised tool exception propagates) and otherwise record the
`InvalidTool` observation. -/
def take_next_step (cfg : AgentConfig) (input : String) (steps : List AgentStep) :
    Except String NextStepOutput :=
  match plan cfg input steps with
  | .error e =>
      .ok (.steps [⟨⟨"_Exception", parse_error_observation, e⟩, parse_error_observation⟩])
  | .ok (.finish out) => .ok (.finish out)
  | .ok (.act t i) =>
      match List.lookup t (tools cfg.collab) with
      | none => .ok (.steps [⟨⟨t, i, rawOf cfg input steps⟩, invalid_tool_msg t⟩])
      | some f =>
          match f i with
          | .error e => .error e
          | .ok obs => .ok (.steps [⟨⟨t, i, rawOf cfg input steps⟩, obs⟩])

/-- `AgentExecutor.max_iterations` default (the notebook sets none). -/
def max_iterations : Nat := 15

/-- Output of `return_stopped_response` with the default "force"
early-stopping method. -/
def stopped_msg : String := "Agent stopped due to iteration limit or time limit."

/-- The executor's `while self._should_continue(...)` loop.  `fuel` is the
number of iterations still allowed (initially `max_iterations`); the
accumulated `intermediate_steps` travel alongside.  Exhausting the budget
returns the forced stopped response together with the steps gathered so
far; an `AgentFinish` returns its output; otherwise the new steps are
appended and the loop repeats. -/
def loop (cfg : AgentConfig) (input : String) :
    Nat → List AgentStep → Except String (String × List AgentStep)
  | 0, steps => .ok (stopped_msg, steps)
  | fuel + 1, steps =>
      match take_next_step cfg input steps with
      | .error e => .error e
      | .ok (.finish out) => .ok (out, steps)
      | .ok (.steps new) => loop cfg input fuel (steps ++ new)

/-- `AgentExecutor._call`: run the loop from an empty transcript with the
default iteration budget. -/
def agent_call (cfg : AgentConfig) (input : String) :
    Except String (String × List AgentStep) :=
  loop cfg input max_iterations []

/-- `agent_executor.invoke({"input": input})`: the caller-visible result.
With `return_intermediate_steps` left at its default of False the returned
dict holds exactly the echoed input and the output string. -/
def invoke (cfg : AgentConfig) (input : String) :
    Except String (List (String × String)) :=
  (agent_call cfg input).map (fun r => [("input", input), ("output", r.1)])

/-- A transcript entry, for stating the alternation invariants: the
intermediate steps flattened into the Action/Observation event sequence. -/
inductive Entry where
  | action (tool : String) (toolInput : String)
  | obs (text : String)
deriving DecidableEq

/-- Flatten `intermediate_steps` into the event sequence it denotes: each
step contributes its action followed by its observation. -/
def flatten : List AgentStep → List Entry
  | [] => []
  | st :: rest => .action st.action.tool st.action.toolInput :: .obs st.observation :: flatten rest

/-- No two consecutive observations appear without an intervening action. -/
def noTwoObs : List Entry → Bool
  | [] => true
  | [_] => true
  | Entry.obs _ :: Entry.obs _ :: _ => false
  | Entry.obs _ :: Entry.action t i :: rest => noTwoObs (Entry.action t i :: rest)
  | Entry.action _ _ :: e :: rest => noTwoObs (e :: rest)

/-- Every action is immediately followed by its observation: at most one
action is ever open. -/
def actionsObserved : List Entry → Bool
  | [] => true
  | Entry.obs _ :: rest => actionsObserved rest
  | [Entry.action _ _] => false
  | Entry.action _ _ :: Entry.obs _ :: rest => actionsObserved rest
  | Entry.action _ _ :: Entry.action _ _ :: _ => false

/-! Concrete deterministic stub instantiations used to evaluate the
executor at specific inputs (stub chat models, stub adapters and stub
parse outcomes). -/

/-- Benign stub collaborators: constant model text, empty stores. -/
def stubCollab : Collaborators :=
  ⟨fun _ => "x", fun _ _ => .ok [], fun _ _ => .ok []⟩

/-- Stub agent that immediately emits a Final Answer action. -/
def cfgFinal : AgentConfig :=
  ⟨stubCollab, fun _ => .ok (.finish "ANSWER")⟩

/-- Stub agent that always chooses WebSearch; the provider returns one
result. -/
def cfgWeb : AgentConfig :=
  ⟨⟨fun _ => "x", fun _ _ => .ok [], fun _ _ => .ok [⟨"https://a", "w"⟩]⟩,
   fun _ => .ok (.act "WebSearch" "berlin weather")⟩

/-- Stub agent whose model output never parses: every turn raises an
`OutputParserException`. -/
def cfgMalformed : AgentConfig :=
  ⟨stubCollab, fun s => .error ("Could not parse LLM output: " ++ s)⟩

/-- Stub agent that always chooses WebSearch and never finishes; the
provider succeeds with an empty result list. -/
def cfgNeverFinal : AgentConfig :=
  ⟨stubCollab, fun _ => .ok (.act "WebSearch" "w")⟩

/-- Stub agent whose web provider raises: the tool catches the exception
and its repr text becomes the observation. -/
def cfgAdapterFail : AgentConfig :=
  ⟨⟨fun _ => "x", fun _ _ => .ok [], fun _ _ => .error "AdapterError: network down"⟩,
   fun _ => .ok (.act "WebSearch" "w")⟩

/-- Stub agent that always chooses VectorStoreSearch while the similarity
search raises an AdapterError. -/
def cfgVecFail : AgentConfig :=
  ⟨⟨fun _ => "x", fun _ _ => .error "AdapterError: connection reset", fun _ _ => .ok []⟩,
   fun _ => .ok (.act "VectorStoreSearch" "v")⟩

/-- Stub collaborators whose web provider returns exactly as many results
as it is asked for. -/
def wcCount : Collaborators :=
  ⟨fun _ => "x", fun _ _ => .ok [], fun _ n => .ok (List.replicate n ⟨"u", "c"⟩)⟩

/-- Stub collaborators whose chat model is the identity, exposing the
exact prompt handed to the generator; the store retrieves nothing. -/
def idCollabEmptyStore : Collaborators :=
  ⟨fun s => s, fun _ _ => .ok [], fun _ _ => .ok []⟩

/-- Stub collaborators whose store retrieves one passage. -/
def collabOnePassage : Collaborators :=
  ⟨fun _ => "generated answer", fun _ _ => .ok ["passage one"], fun _ _ => .ok []⟩

/-- Stub agent that always chooses VectorStoreSearch and never finishes. -/
def cfgVecForever : AgentConfig :=
  ⟨⟨fun _ => "x", fun _ _ => .ok ["d"], fun _ _ => .ok []⟩,
   fun _ => .ok (.act "VectorStoreSearch" "v")⟩

/-- Stub agent that always picks an unregistered tool name, never
finishing. -/
def cfgUnknownForever : AgentConfig :=
  ⟨stubCollab, fun _ => .ok (.act "Calculator" "2+2")⟩

/-- Stub agent that always chooses WebSearch with a fixed query and never
finishes; provider succeeds with no results. -/
def cfgWebTen : AgentConfig :=
  ⟨stubCollab, fun _ => .ok (.act "WebSearch" "w10")⟩

/-- Stub collaborators whose web provider returns a single fixed result. -/
def wcWeb : Collaborators :=
  ⟨fun _ => "x", fun _ _ => .ok [], fun _ _ => .ok [⟨"u", "c"⟩]⟩

/-- Does `pat` occur as a prefix of `l`?  (Character-list helper for
substring facts about prompt texts.) -/
def charsHasPre : List Char → List Char → Bool
  | _, [] => true
  | [], _ :: _ => false
  | c :: cs, p :: ps => c == p && charsHasPre cs ps

/-- Does `pat` occur as a contiguous substring of `l`? -/
def charsHasSub : List Char → List Char → Bool
  | [], pat => pat.isEmpty
  | c :: cs, pat => charsHasPre (c :: cs) pat || charsHasSub cs pat

/-- Does `pat` occur as a substring of `s`? -/
def strContains (s pat : String) : Bool :=
  charsHasSub s.data pat.data

/-! Helper lemmas about the executor step and loop. -/

theorem take_next_step_of_parse_error (cfg : AgentConfig) (input : String)
    (steps : List AgentStep) (e : String) (h : plan cfg input steps = .error e) :
    take_next_step cfg input steps =
      .ok (.steps [⟨⟨"_Exception", parse_error_observation, e⟩, parse_error_observation⟩]) := by
  simp only [take_next_step, h]

theorem take_next_step_of_finish (cfg : AgentConfig) (input : String)
    (steps : List AgentStep) (out : String)
    (h : plan cfg input steps = .ok (.finish out)) :
    take_next_step cfg input steps = .ok (.finish out) := by
  simp only [take_next_step, h]

theorem take_next_step_of_unknown (cfg : AgentConfig) (input : String)
    (steps : List AgentStep) (t i : String)
    (h : plan cfg input steps = .ok (.act t i))
    (hl : List.lookup t (tools cfg.collab) = none) :
    take_next_step cfg input steps =
      .ok (.steps [⟨⟨t, i, rawOf cfg input steps⟩, invalid_tool_msg t⟩]) := by
  simp only [take_next_step, h, hl]

theorem take_next_step_of_tool_ok (cfg : AgentConfig) (input : String)
    (steps : List AgentStep) (t i : String) (f : String → Except String String)
    (obs : String) (h : plan cfg input steps = .ok (.act t i))
    (hl : List.lookup t (tools cfg.collab) = some f) (hf : f i = .ok obs) :
    take_next_step cfg input steps =
      .ok (.steps [⟨⟨t, i, rawOf cfg input steps⟩, obs⟩]) := by
  simp only [take_next_step, h, hl, hf]

theorem take_next_step_of_tool_error (cfg : AgentConfig) (input : String)
    (steps : List AgentStep) (t i : String) (f : String → Except String String)
    (e : String) (h : plan cfg input steps = .ok (.act t i))
    (hl : List.lookup t (tools cfg.collab) = some f) (hf : f i = .error e) :
    take_next_step cfg input steps = .error e := by
  simp only [take_next_step, h, hl, hf]

theorem loop_zero (cfg : AgentConfig) (input : String) (steps : List AgentStep) :
    loop cfg input 0 steps = .ok (stopped_msg, steps) := rfl

theorem loop_succ_of_steps (cfg : AgentConfig) (input : String) (fuel : Nat)
    (steps ss : List AgentStep)
    (h : take_next_step cfg input steps = .ok (.steps ss)) :
    loop cfg input (fuel + 1) steps = loop cfg input fuel (steps ++ ss) := by
  simp only [loop, h]

theorem loop_succ_of_finish (cfg : AgentConfig) (input : String) (fuel : Nat)
    (steps : List AgentStep) (out : String)
    (h : take_next_step cfg input steps = .ok (.finish out)) :
    loop cfg input (fuel + 1) steps = .ok (out, steps) := by
  simp only [loop, h]

theorem loop_succ_of_error (cfg : AgentConfig) (input : String) (fuel : Nat)
    (steps : List AgentStep) (e : String)
    (h : take_next_step cfg input steps = .error e) :
    loop cfg input (fuel + 1) steps = .error e := by
  simp only [loop, h]

/-- Every batch of new intermediate steps the executor produces in one
iteration is a singleton: one action, one observation. -/
theorem take_next_step_len (cfg : AgentConfig) (input : String)
    (steps ss : List AgentStep)
    (h : take_next_step cfg input steps = .ok (.steps ss)) : ss.length = 1 := by
  cases hp : plan cfg input steps with
  | error e =>
      rw [take_next_step_of_parse_error cfg input steps e hp] at h
      simp only [Except.ok.injEq, NextStepOutput.steps.injEq] at h
      rw [← h]
      rfl
  | ok d =>
      cases d with
      | finish out =>
          rw [take_next_step_of_finish cfg input steps out hp] at h
          exact absurd h (by simp)
      | act t i =>
          cases hl : List.lookup t (tools cfg.collab) with
          | none =>
              rw [take_next_step_of_unknown cfg input steps t i hp hl] at h
              simp only [Except.ok.injEq, NextStepOutput.steps.injEq] at h
              rw [← h]
              rfl
          | some f =>
              cases hf : f i with
              | error e =>
                  rw [take_next_step_of_tool_error cfg input steps t i f e hp hl hf] at h
                  exact absurd h (by simp)
              | ok obs =>
                  rw [take_next_step_of_tool_ok cfg input steps t i f obs hp hl hf] at h
                  simp only [Except.ok.injEq, NextStepOutput.steps.injEq] at h
                  rw [← h]
                  rfl

/-- The transcript only grows: a successful loop run extends the steps it
started from. -/
theorem loop_extends (cfg : AgentConfig) (input : String) :
    ∀ fuel steps out final, loop cfg input fuel steps = .ok (out, final) →
      ∃ suffix, final = steps ++ suffix := by
  intro fuel
  induction fuel with
  | zero =>
      intro steps out final h
      rw [loop_zero] at h
      simp only [Except.ok.injEq, Prod.mk.injEq] at h
      exact ⟨[], by rw [← h.2, List.append_nil]⟩
  | succ n ih =>
      intro steps out final h
      cases hts : take_next_step cfg input steps with
      | error e =>
          rw [loop_succ_of_error cfg input n steps e hts] at h
          exact absurd h (by simp)
      | ok nso =>
          cases nso with
          | finish o =>
              rw [loop_succ_of_finish cfg input n steps o hts] at h
              simp only [Except.ok.injEq, Prod.mk.injEq] at h
              exact ⟨[], by rw [← h.2, List.append_nil]⟩
          | steps new =>
              rw [loop_succ_of_steps cfg input n steps new hts] at h
              obtain ⟨suffix, hs⟩ := ih (steps ++ new) out final h
              exact ⟨new ++ suffix, by rw [hs, List.append_assoc]⟩

/-- The loop never records more steps than it has iteration budget. -/
theorem loop_len_le (cfg : AgentConfig) (input : String) :
    ∀ fuel steps out final, loop cfg input fuel steps = .ok (out, final) →
      final.length ≤ steps.length + fuel := by
  intro fuel
  induction fuel with
  | zero =>
      intro steps out final h
      rw [loop_zero] at h
      simp only [Except.ok.injEq, Prod.mk.injEq] at h
      rw [← h.2]
      omega
  | succ n ih =>
      intro steps out final h
      cases hts : take_next_step cfg input steps with
      | error e =>
          rw [loop_succ_of_error cfg input n steps e hts] at h
          exact absurd h (by simp)
      | ok nso =>
          cases nso with
          | finish o =>
              rw [loop_succ_of_finish cfg input n steps o hts] at h
              simp only [Except.ok.injEq, Prod.mk.injEq] at h
              rw [← h.2]
              omega
          | steps new =>
              rw [loop_succ_of_steps cfg input n steps new hts] at h
              have hlen := take_next_step_len cfg input steps new hts
              have := ih (steps ++ new) out final h
              rw [List.length_append, hlen] at this
              omega

/-- If every turn yields exactly one new step (the agent never finishes
and no tool raises), the loop spends its whole budget and returns the
forced stopped response, having appended one step per iteration. -/
theorem loop_stalls (cfg : AgentConfig) (input : String)
    (h : ∀ steps, ∃ ss, take_next_step cfg input steps = .ok (.steps ss) ∧ ss.length = 1) :
    ∀ fuel steps, ∃ final, loop cfg input fuel steps = .ok (stopped_msg, final) ∧
      final.length = steps.length + fuel := by
  intro fuel
  induction fuel with
  | zero =>
      intro steps
      exact ⟨steps, rfl, by omega⟩
  | succ n ih =>
      intro steps
      obtain ⟨ss, hts, hlen⟩ := h steps
      obtain ⟨final, hloop, hfl⟩ := ih (steps ++ ss)
      refine ⟨final, ?_, ?_⟩
      · rw [loop_succ_of_steps cfg input n steps ss hts]
        exact hloop
      · rw [hfl, List.length_append, hlen]
        omega

/-- An `AgentFinish` from `take_next_step` can only come from a parsed
Final Answer action. -/
theorem take_next_step_finish_inv (cfg : AgentConfig) (input : String)
    (steps : List AgentStep) (out : String)
    (h : take_next_step cfg input steps = .ok (.finish out)) :
    plan cfg input steps = .ok (.finish out) := by
  cases hp : plan cfg input steps with
  | error e =>
      rw [take_next_step_of_parse_error cfg input steps e hp] at h
      exact absurd h (by simp)
  | ok d =>
      cases d with
      | finish o =>
          rw [take_next_step_of_finish cfg input steps o hp] at h
          simp only [Except.ok.injEq, NextStepOutput.finish.injEq] at h
          rw [h]
      | act t i =>
          cases hl : List.lookup t (tools cfg.collab) with
          | none =>
              rw [take_next_step_of_unknown cfg input steps t i hp hl] at h
              exact absurd h (by simp)
          | some f =>
              cases hf : f i with
              | error e =>
                  rw [take_next_step_of_tool_error cfg input steps t i f e hp hl hf] at h
                  exact absurd h (by simp)
              | ok obs =>
                  rw [take_next_step_of_tool_ok cfg input steps t i f obs hp hl hf] at h
                  exact absurd h (by simp)

/-- A successful loop run either stopped by exhausting the budget (forced
stopped response) or ended on a parsed Final Answer whose action_input is
the output. -/
theorem loop_terminal (cfg : AgentConfig) (input : String) :
    ∀ fuel steps out final, loop cfg input fuel steps = .ok (out, final) →
      out = stopped_msg ∨ ∃ s, plan cfg input s = .ok (.finish out) := by
  intro fuel
  induction fuel with
  | zero =>
      intro steps out final h
      rw [loop_zero] at h
      simp only [Except.ok.injEq, Prod.mk.injEq] at h
      exact Or.inl h.1.symm
  | succ n ih =>
      intro steps out final h
      cases hts : take_next_step cfg input steps with
      | error e =>
          rw [loop_succ_of_error cfg input n steps e hts] at h
          exact absurd h (by simp)
      | ok nso =>
          cases nso with
          | finish o =>
              rw [loop_succ_of_finish cfg input n steps o hts] at h
              simp only [Except.ok.injEq, Prod.mk.injEq] at h
              refine Or.inr ⟨steps, ?_⟩
              rw [← h.1]
              exact take_next_step_finish_inv cfg input steps o hts
          | steps new =>
              rw [loop_succ_of_steps cfg input n steps new hts] at h
              exact ih (steps ++ new) out final h

/-- Structural alternation of the recorded transcript: flattening any list
of (action, observation) pairs never yields two consecutive observations,
and every action is immediately observed. -/
theorem flatten_wf (steps : List AgentStep) :
    noTwoObs (flatten steps) = true ∧ actionsObserved (flatten steps) = true := by
  have key : ∀ l : List AgentStep,
      noTwoObs (flatten l) = true ∧ (∀ o, noTwoObs (Entry.obs o :: flatten l) = true) ∧
        actionsObserved (flatten l) = true := by
    intro l
    induction l with
    | nil => exact ⟨rfl, fun o => rfl, rfl⟩
    | cons st rest ih =>
        obtain ⟨ih1, ih2, ih3⟩ := ih
        refine ⟨?_, ?_, ?_⟩
        · show noTwoObs (Entry.action st.action.tool st.action.toolInput ::
            Entry.obs st.observation :: flatten rest) = true
          rw [noTwoObs]
          exact ih2 st.observation
        · intro o
          show noTwoObs (Entry.obs o :: Entry.action st.action.tool st.action.toolInput ::
            Entry.obs st.observation :: flatten rest) = true
          rw [noTwoObs, noTwoObs]
          exact ih2 st.observation
        · show actionsObserved (Entry.action st.action.tool st.action.toolInput ::
            Entry.obs st.observation :: flatten rest) = true
          rw [actionsObserved]
          exact ih3
  exact ⟨(key steps).1, (key steps).2.2⟩

/-! Claim theorems. -/

/-- C1 (counterexample): the claim says the returned result carries the
full Transcript alongside the output.  At a concrete immediately-finishing
agent, `invoke` returns exactly the echoed input and the output string —
the returned dict has no transcript (and no intermediate_steps) entry. -/
theorem c1_counterexample :
    invoke cfgFinal "q" = .ok [("input", "q"), ("output", "ANSWER")] ∧
    List.lookup "transcript" [("input", "q"), ("output", "ANSWER")] = none ∧
    List.lookup "intermediate_steps" [("input", "q"), ("output", "ANSWER")] = none :=
  ⟨rfl, rfl, rfl⟩

/-- C1 (amended): whenever the Decision Loop reaches a parsed action with
action == "Final Answer", the run terminates and returns that action's
action_input as the output, but the caller-visible result carries only the
echoed input and the output string — the transcript is not part of the
returned result (`return_intermediate_steps` defaults to False). -/
theorem c1_run_returns_output_only (cfg : AgentConfig) (input : String) :
    (∀ steps fuel out, plan cfg input steps = .ok (.finish out) →
      loop cfg input (fuel + 1) steps = .ok (out, steps)) ∧
    (∀ out final, agent_call cfg input = .ok (out, final) →
      invoke cfg input = .ok [("input", input), ("output", out)]) := by
  constructor
  · intro steps fuel out h
    exact loop_succ_of_finish cfg input fuel steps out
      (take_next_step_of_finish cfg input steps out h)
  · intro out final h
    simp only [invoke, h, Except.map]

/-- C1 witness: the amended theorem evaluated on the immediately-finishing
stub agent. -/
theorem c1_witness :
    loop cfgFinal "q" 1 [] = .ok ("ANSWER", []) ∧
    invoke cfgFinal "q" = .ok [("input", "q"), ("output", "ANSWER")] :=
  ⟨(c1_run_returns_output_only cfgFinal "q").1 [] 0 "ANSWER" rfl,
   (c1_run_returns_output_only cfgFinal "q").2 "ANSWER" [] rfl⟩

/-- C2: a model output parsed as a single JSON action naming a registered
tool makes the loop dispatch exactly that tool with exactly the given
action_input; when the call returns, exactly one (action, observation) step
is appended and the loop re-prompts with a scratchpad extended by exactly
that observation.  In particular "WebSearch" is mapped by the registry to
the web adapter itself — the "vector store first" rule is prompt text only
and never overrides the parsed choice. -/
theorem c2_dispatch_exact (cfg : AgentConfig) (input : String)
    (steps : List AgentStep) (t i : String) (f : String → Except String String)
    (obs : String) (hplan : plan cfg input steps = .ok (.act t i))
    (hlook : List.lookup t (tools cfg.collab) = some f) (hf : f i = .ok obs) :
    take_next_step cfg input steps = .ok (.steps [⟨⟨t, i, rawOf cfg input steps⟩, obs⟩]) ∧
    (∀ fuel, loop cfg input (fuel + 1) steps =
      loop cfg input fuel (steps ++ [⟨⟨t, i, rawOf cfg input steps⟩, obs⟩])) ∧
    format_log_to_str (steps ++ [⟨⟨t, i, rawOf cfg input steps⟩, obs⟩]) =
      format_log_to_str steps ++ rawOf cfg input steps ++ "\nObservation: " ++ obs
        ++ "\nThought: " ∧
    List.lookup "WebSearch" (tools cfg.collab) = some (web_search cfg.collab) := by
  have hts := take_next_step_of_tool_ok cfg input steps t i f obs hplan hlook hf
  refine ⟨hts, fun fuel => loop_succ_of_steps cfg input fuel steps _ hts, ?_, rfl⟩
  simp only [format_log_to_str, List.foldl_append, List.foldl_cons, List.foldl_nil]

/-- C2 witness: the dispatch theorem evaluated on the stub agent that
chooses WebSearch. -/
theorem c2_witness :
    take_next_step cfgWeb "q" [] =
      .ok (.steps [⟨⟨"WebSearch", "berlin weather", "x"⟩, pyStr [⟨"https://a", "w"⟩]⟩]) :=
  (c2_dispatch_exact cfgWeb "q" [] "WebSearch" "berlin weather"
    (web_search cfgWeb.collab) (pyStr [⟨"https://a", "w"⟩]) rfl rfl rfl).1

/-- C3 (counterexample): the claim says malformed-output recovery is
bounded by a configured maximum retry count whose exhaustion surfaces a
fatal AgentStalled error.  At a concrete agent whose output never parses,
the run instead appends the corrective observation fifteen times (the
only bound is the global 15-iteration cap) and then returns NORMALLY with
the forced stopped-early output — no error reaches the caller. -/
theorem c3_counterexample :
    invoke cfgMalformed "q" = .ok [("input", "q"), ("output", stopped_msg)] ∧
    (agent_call cfgMalformed "q").map (fun r => r.2.map (fun st => st.observation)) =
      .ok (List.replicate 15 parse_error_observation) :=
  ⟨rfl, rfl⟩

/-- C3 (amended): for every model output that does not parse as the
required single-JSON action, or that names an unregistered tool, the loop
dispatches no tool and appends one corrective Observation before
re-prompting; this recovery is bounded only by the executor's overall
15-iteration cap, whose exhaustion returns the normal stopped-early
answer (there is no separate retry bound and no fatal AgentStalled
error). -/
theorem c3_malformed_recovery (cfg : AgentConfig) (input : String) :
    (∀ steps e, plan cfg input steps = .error e →
      take_next_step cfg input steps =
        .ok (.steps [⟨⟨"_Exception", parse_error_observation, e⟩, parse_error_observation⟩])) ∧
    (∀ steps t i, plan cfg input steps = .ok (.act t i) →
      List.lookup t (tools cfg.collab) = none →
      take_next_step cfg input steps =
        .ok (.steps [⟨⟨t, i, rawOf cfg input steps⟩, invalid_tool_msg t⟩])) ∧
    ((∀ steps, ∃ e, plan cfg input steps = .error e) →
      invoke cfg input = .ok [("input", input), ("output", stopped_msg)]) := by
  refine ⟨fun steps e h => take_next_step_of_parse_error cfg input steps e h,
    fun steps t i h hl => take_next_step_of_unknown cfg input steps t i h hl, ?_⟩
  intro h
  have key : ∀ steps, ∃ ss,
      take_next_step cfg input steps = .ok (.steps ss) ∧ ss.length = 1 := by
    intro steps
    obtain ⟨e, he⟩ := h steps
    exact ⟨_, take_next_step_of_parse_error cfg input steps e he, rfl⟩
  obtain ⟨final, hl, _⟩ := loop_stalls cfg input key max_iterations []
  simp only [invoke, agent_call, hl, Except.map]

/-- C3 witness: the recovery theorem evaluated on the always-malformed
stub agent. -/
theorem c3_witness :
    take_next_step cfgMalformed "q" [] =
      .ok (.steps [⟨⟨"_Exception", parse_error_observation,
        "Could not parse LLM output: x"⟩, parse_error_observation⟩]) ∧
    invoke cfgMalformed "q" = .ok [("input", "q"), ("output", stopped_msg)] :=
  ⟨(c3_malformed_recovery cfgMalformed "q").1 [] "Could not parse LLM output: x" rfl,
   (c3_malformed_recovery cfgMalformed "q").2.2
     (fun _ => ⟨"Could not parse LLM output: x", rfl⟩)⟩

/-- C4 (counterexample): the claim says a never-finishing agent makes run
terminate with a LoopBudgetExceeded ERROR surfacing the partial
Transcript.  At a concrete never-finishing agent, the run performs exactly
15 cycles and then returns a NORMAL result whose output is the forced
stopped-early string; no error is raised and the result carries no
transcript. -/
theorem c4_counterexample :
    (agent_call cfgNeverFinal "q").map (fun r => (r.1, r.2.length)) =
      .ok (stopped_msg, 15) ∧
    invoke cfgNeverFinal "q" = .ok [("input", "q"), ("output", stopped_msg)] :=
  ⟨rfl, rfl⟩

/-- C4 (amended): for every agent that never emits a Final Answer (and
whose tool calls return), the run terminates exactly at the framework's
default 15-iteration budget — not before and not after — returning
normally with the stopped-early output string; the partial transcript is
not part of the caller-visible result. -/
theorem c4_budget_normal_stop (cfg : AgentConfig) (input : String)
    (h : ∀ steps, ∃ ss, take_next_step cfg input steps = .ok (.steps ss) ∧ ss.length = 1) :
    (agent_call cfg input).map (fun r => (r.1, r.2.length)) =
      .ok (stopped_msg, max_iterations) ∧
    invoke cfg input = .ok [("input", input), ("output", stopped_msg)] := by
  obtain ⟨final, hl, hlen⟩ := loop_stalls cfg input h max_iterations []
  have hfin : final.length = max_iterations := by simpa using hlen
  constructor
  · simp only [agent_call, hl, Except.map, hfin]
  · simp only [invoke, agent_call, hl, Except.map]

/-- C4 witness: the budget theorem evaluated on the stub agent that always
chooses VectorStoreSearch. -/
theorem c4_witness :
    (agent_call cfgVecForever "q").map (fun r => (r.1, r.2.length)) =
      .ok (stopped_msg, max_iterations) ∧
    invoke cfgVecForever "q" = .ok [("input", "q"), ("output", stopped_msg)] :=
  c4_budget_normal_stop cfgVecForever "q"
    (fun _ => ⟨[⟨⟨"VectorStoreSearch", "v", "x"⟩, "x"⟩], rfl, rfl⟩)

/-- C5 (counterexample): the claim says every failing adapter call is
appended as an Observation, the loop continues and run does not crash.  At
a concrete agent whose VectorStoreSearch dispatch fails (RetrievalQA has
no exception handling), the whole run instead aborts with the adapter's
error — no Observation is recorded and no (degraded) answer is returned.
A failing WebSearch dispatch, by contrast, does continue: the tool catches
the exception, its repr becomes the observation, and the run finishes
normally. -/
theorem c5_counterexample :
    invoke cfgVecFail "q" = .error "AdapterError: connection reset" ∧
    invoke cfgAdapterFail "q" = .ok [("input", "q"), ("output", stopped_msg)] :=
  ⟨rfl, rfl⟩

/-- C5 (amended): the fate of a failing adapter call depends on the tool.
A WebSearch provider failure is caught inside `TavilySearchResults._run`:
the exception's repr becomes the tool's output, the loop appends it as the
Observation and continues, so run may still return a (degraded) answer.  A
VectorStoreSearch failure propagates out of RetrievalQA, out of the step
and out of run, aborting the invocation with no Observation appended.  In
neither case does the Decision Loop retry the call itself. -/
theorem c5_adapter_failure_paths (cfg : AgentConfig) (input : String)
    (steps : List AgentStep) (i e : String) :
    (cfg.collab.tavily i 5 = .error e →
      plan cfg input steps = .ok (.act "WebSearch" i) →
      take_next_step cfg input steps =
        .ok (.steps [⟨⟨"WebSearch", i, rawOf cfg input steps⟩, e⟩]) ∧
      ∀ fuel, loop cfg input (fuel + 1) steps =
        loop cfg input fuel (steps ++ [⟨⟨"WebSearch", i, rawOf cfg input steps⟩, e⟩])) ∧
    (cfg.collab.store i 4 = .error e →
      plan cfg input steps = .ok (.act "VectorStoreSearch" i) →
      take_next_step cfg input steps = .error e ∧
      (∀ fuel, loop cfg input (fuel + 1) steps = .error e) ∧
      (steps = [] → invoke cfg input = .error e)) := by
  constructor
  · intro htav hplan
    have hf : web_search cfg.collab i = .ok e := by
      simp only [web_search, htav]
    have hts := take_next_step_of_tool_ok cfg input steps "WebSearch" i
      (web_search cfg.collab) e hplan rfl hf
    exact ⟨hts, fun fuel => loop_succ_of_steps cfg input fuel steps _ hts⟩
  · intro hstore hplan
    have hf : vector_search cfg.collab i = .error e := by
      simp only [vector_search, hstore, Except.map]
    have hts := take_next_step_of_tool_error cfg input steps "VectorStoreSearch" i
      (vector_search cfg.collab) e hplan rfl hf
    refine ⟨hts, fun fuel => loop_succ_of_error cfg input fuel steps e hts, ?_⟩
    intro hs
    subst hs
    have h15 : loop cfg input max_iterations [] = .error e :=
      loop_succ_of_error cfg input 14 [] e hts
    simp only [invoke, agent_call, h15, Except.map]

/-- C5 witness: both failure paths evaluated — the raising web provider
whose repr text is recorded as the observation, and the raising similarity
search that aborts the run. -/
theorem c5_witness :
    take_next_step cfgAdapterFail "q" [] =
      .ok (.steps [⟨⟨"WebSearch", "w", "x"⟩, "AdapterError: network down"⟩]) ∧
    take_next_step cfgVecFail "q" [] = .error "AdapterError: connection reset" ∧
    invoke cfgVecFail "q" = .error "AdapterError: connection reset" :=
  have HW := (c5_adapter_failure_paths cfgAdapterFail "q" [] "w"
    "AdapterError: network down").1 rfl rfl
  have HV := (c5_adapter_failure_paths cfgVecFail "q" [] "v"
    "AdapterError: connection reset").2 rfl rfl
  ⟨HW.1, HV.1, HV.2.2 rfl⟩

/-- C6 (counterexample): the claim says the adapter requests up to 10
results (the source's `k=10`).  `k` is ignored by `TavilySearchResults`,
whose `max_results` default of 5 stays in force: against a provider with
ten results available (it returns exactly as many as asked), the recorded
observation serializes five results, not ten — matching the notebook's own
recorded observation of exactly five result dicts. -/
theorem c6_counterexample :
    web_search wcCount "q" = .ok (pyStr (List.replicate 5 ⟨"u", "c"⟩)) ∧
    pyStr (List.replicate 5 ⟨"u", "c"⟩) ≠ pyStr (List.replicate 10 ⟨"u", "c"⟩) :=
  ⟨rfl, by decide⟩

/-- C6 (amended): the Web Search Adapter asks the provider for up to 5
results — the tool's `max_results` default, since the source's `k=10`
keyword is not a `TavilySearchResults` field and is ignored — serializes
the returned list into the Observation string, and never calls the Answer
Generator: its result is invariant under changing the chat model (and the
store), and the registry dispatches "WebSearch" to it. -/
theorem c6_web_adapter (c : Collaborators) (q : String) (rs : List SearchResult)
    (h : c.tavily q 5 = .ok rs) :
    List.lookup "WebSearch" (tools c) = some (web_search c) ∧
    web_search c q = .ok (pyStr rs) ∧
    (∀ g s, web_search ⟨g, s, c.tavily⟩ q = web_search c q) := by
  refine ⟨rfl, ?_, fun g s => rfl⟩
  simp only [web_search, h]

/-- C6 witness: the adapter theorem evaluated on a provider returning one
result. -/
theorem c6_witness :
    web_search wcWeb "q" = .ok (pyStr [⟨"u", "c"⟩]) ∧
    List.lookup "WebSearch" (tools wcWeb) = some (web_search wcWeb) :=
  have H := c6_web_adapter wcWeb "q" [⟨"u", "c"⟩] rfl
  ⟨H.2.1, H.1⟩

/-- C7 (counterexample): the claim says that when no passages are
retrieved the adapter passes an explicit "no context found" note to the
generator.  With an identity chat model and an empty store, the text the
generator receives is just the stuff template around an empty context
block — it contains no "no context" note anywhere. -/
theorem c7_counterexample :
    vector_search idCollabEmptyStore "q2" = .ok (ragPrompt [] "q2") ∧
    strContains (ragPrompt [] "q2") "no context" = false :=
  ⟨rfl, by decide⟩

/-- C7 (amended): the Knowledge Store Adapter is the two-stage
retrieval-then-generation call: it fetches the top-4 most similar
passages, feeds them with the query to the Answer Generator through the
fixed stuff template, and returns the generated text verbatim; when no
passages are returned the generator simply receives the template with an
empty context block (no explicit "no context found" note is inserted).
The registry dispatches "VectorStoreSearch" to it, and its result is
invariant under changing the web provider. -/
theorem c7_two_stage (c : Collaborators) (q : String) (docs : List String)
    (h : c.store q 4 = .ok docs) :
    vector_search c q = .ok (c.llm (ragPrompt docs q)) ∧
    List.lookup "VectorStoreSearch" (tools c) = some (vector_search c) ∧
    (∀ tv, vector_search ⟨c.llm, c.store, tv⟩ q = vector_search c q) := by
  refine ⟨?_, rfl, fun tv => rfl⟩
  simp only [vector_search, h, Except.map]

/-- C7 witness: the two-stage theorem evaluated on a store returning one
passage. -/
theorem c7_witness :
    vector_search collabOnePassage "q" = .ok "generated answer" ∧
    List.lookup "VectorStoreSearch" (tools collabOnePassage) =
      some (vector_search collabOnePassage) :=
  have H := c7_two_stage collabOnePassage "q" ["passage one"] rfl
  ⟨H.1, H.2.1⟩

/-- C8 (counterexample): the claim says the loop never terminates in Done
except via a final Action.  At a concrete agent that forever names an
unregistered tool — so no Final Answer action ever occurs — the run still
terminates successfully, via the iteration cap's forced stopped-early
answer. -/
theorem c8_counterexample :
    invoke cfgUnknownForever "q" = .ok [("input", "q"), ("output", stopped_msg)] ∧
    cfgUnknownForever.parse "x" = .ok (.act "Calculator" "2+2") :=
  ⟨rfl, rfl⟩

/-- C8 (amended): every transcript a run produces is append-only (each
loop step only extends the accumulated steps) and alternates strictly —
never two consecutive Observations without an intervening Action, and
every Action is immediately observed, so at most one Action is ever open;
however termination happens either via a parsed Final Answer action OR
via exhaustion of the 15-iteration budget (forced stopped response). -/
theorem c8_transcript_invariants (cfg : AgentConfig) (input : String)
    (out : String) (final : List AgentStep)
    (h : agent_call cfg input = .ok (out, final)) :
    noTwoObs (flatten final) = true ∧ actionsObserved (flatten final) = true ∧
    (∀ fuel steps out' final', loop cfg input fuel steps = .ok (out', final') →
      ∃ suffix, final' = steps ++ suffix) ∧
    (out = stopped_msg ∨ ∃ s, plan cfg input s = .ok (.finish out)) := by
  refine ⟨(flatten_wf final).1, (flatten_wf final).2, loop_extends cfg input, ?_⟩
  exact loop_terminal cfg input max_iterations [] out final h

/-- C8 witness: the invariant theorem evaluated on the
immediately-finishing stub agent. -/
theorem c8_witness :
    noTwoObs (flatten []) = true ∧ actionsObserved (flatten []) = true :=
  have H := c8_transcript_invariants cfgFinal "q" "ANSWER" [] rfl
  ⟨H.1, H.2.1⟩

/-- C9: determinism of run — with the collaborators, the parser and the
input all fixed, any two invocations yield the same caller-visible result
and the same internal (output, transcript) pair. -/
theorem c9_deterministic (cfg : AgentConfig) (input : String)
    (r₁ r₂ : Except String (List (String × String)))
    (s₁ s₂ : Except String (String × List AgentStep))
    (h₁ : invoke cfg input = r₁) (h₂ : invoke cfg input = r₂)
    (h₃ : agent_call cfg input = s₁) (h₄ : agent_call cfg input = s₂) :
    r₁ = r₂ ∧ s₁ = s₂ :=
  ⟨by rw [← h₁, h₂], by rw [← h₃, h₄]⟩

/-- C9 witness: determinism evaluated on the immediately-finishing stub
agent. -/
theorem c9_witness :
    (Except.ok [("input", "q"), ("output", "ANSWER")] :
        Except String (List (String × String))) =
      .ok [("input", "q"), ("output", "ANSWER")] ∧
    (Except.ok ("ANSWER", ([] : List AgentStep)) :
        Except String (String × List AgentStep)) =
      .ok ("ANSWER", []) :=
  c9_deterministic cfgFinal "q" _ _ _ _ rfl rfl rfl rfl

/-- C10: the notebook sets no iteration limit, so the executor carries the
framework default of 15: every successful run records at most 15
Thought/Action/Observation cycles, and an agent that never finishes (and
whose tools return) makes run return NORMALLY with the stopped-early
output string instead of raising an error. -/
theorem c10_default_cap (cfg : AgentConfig) (input : String) :
    max_iterations = 15 ∧
    (∀ out final, agent_call cfg input = .ok (out, final) → final.length ≤ 15) ∧
    ((∀ steps, ∃ ss, take_next_step cfg input steps = .ok (.steps ss) ∧ ss.length = 1) →
      invoke cfg input = .ok [("input", input), ("output", stopped_msg)]) := by
  refine ⟨rfl, ?_, ?_⟩
  · intro out final h
    have := loop_len_le cfg input max_iterations [] out final h
    simpa using this
  · intro h
    obtain ⟨final, hl, hlen⟩ := loop_stalls cfg input h max_iterations []
    simp only [invoke, agent_call, hl, Except.map]

/-- C10 witness: the default-cap theorem evaluated on a never-finishing
WebSearch stub agent. -/
theorem c10_witness :
    max_iterations = 15 ∧
    invoke cfgWebTen "q" = .ok [("input", "q"), ("output", stopped_msg)] :=
  have H := c10_default_cap cfgWebTen "q"
  ⟨H.1, H.2.2 (fun _ => ⟨[⟨⟨"WebSearch", "w10", "x"⟩, "[]"⟩], rfl, rfl⟩)⟩

end AgenticRag
